import Mathlib

/-!
Verification of the schedstat reader/parser (src/pid/schedstat.rs).

The parser input is modelled as a list of bytes (each a `Nat` in 0..255).
The Rust `usize` type is modelled as `Nat` bounded by `USIZE_MAX`, fixing the
platform's native unsigned-integer width at 64 bits.  The repository's
shared parsing utilities (`parse_usize`, `read_to_end`, `map_result`) and the
external grammar combinators (`space`, `line_ending`) are not part of the
source tree; they are modelled from the specification's collaborator
contracts, as marked on each definition.
-/

namespace Procinfo

/-- The record parsed from a schedstat line (struct `Schedstat` in the source):
`sum_exec_runtime`, `run_delay`, `pcount`, all `usize` fields. -/
structure Schedstat where
  sum_exec_runtime : Nat
  run_delay : Nat
  pcount : Nat
deriving DecidableEq, Repr

/-- The default value of a `usize` field, as produced by the derived
`Default` implementation in Rust. -/
def usizeDefault : Nat := 0

/-- The default-constructed record (from the derived `Default` on
`Schedstat`: each field takes its own default). -/
def Schedstat.default : Schedstat :=
  { sum_exec_runtime := usizeDefault
    run_delay := usizeDefault
    pcount := usizeDefault }

/-- The native unsigned-integer width of the platform, fixed at 64 bits. -/
def USIZE_BITS : Nat := 64

/-- The largest value representable in a `usize`. -/
def USIZE_MAX : Nat := 2 ^ USIZE_BITS - 1

/-- ASCII space. -/
def SP : Nat := 32
/-- ASCII line feed. -/
def LF : Nat := 10
/-- ASCII carriage return. -/
def CR : Nat := 13
/-- ASCII horizontal tab. -/
def TAB : Nat := 9

/-- Whether a byte is an ASCII decimal digit. -/
def isDigit (b : Nat) : Bool := 48 ≤ b && b ≤ 57

/-- The value of a string of ASCII digit bytes read in base 10, starting
from the accumulator `acc`. -/
def digitsVal (acc : Nat) (ds : List Nat) : Nat :=
  ds.foldl (fun a d => a * 10 + (d - 48)) acc

/-- Modelled from the spec: the unsigned-decimal-integer token recognizer
(`parse_usize` from the repository's shared parsing utilities, absent from
the source tree).  It consumes the longest nonempty prefix of decimal
digits, converts it in base 10 into the native unsigned-integer width, and
fails on an empty digit string or on numeric overflow (a hard failure, not
saturation). -/
def parse_usize (input : List Nat) : Option (Nat × List Nat) :=
  if input.takeWhile isDigit = [] then none
  else if digitsVal 0 (input.takeWhile isDigit) ≤ USIZE_MAX then
    some (digitsVal 0 (input.takeWhile isDigit), input.dropWhile isDigit)
  else none

/-- Modelled from the spec: the single-space separator recognizer (the
external combinator named `space`), per the contract that exactly one
ASCII space separates the tokens and no alternate separators are
accepted. -/
def space : List Nat → Option (List Nat)
  | 32 :: rest => some rest
  | _ => none

/-- Modelled from the spec: the line-ending recognizer (the external
combinator named `line_ending`), which accepts a line feed or a
carriage-return-line-feed pair. -/
def line_ending : List Nat → Option (List Nat)
  | 10 :: rest => some rest
  | 13 :: 10 :: rest => some rest
  | _ => none

/-- The schedstat line parser (`parse_schedstat` in the source): an integer
token, a space, an integer token, a space, an integer token, a line ending,
in sequence; the three values fill the record in token order and any
remaining input is left unconsumed. -/
def parse_schedstat (input : List Nat) : Option Schedstat :=
  match parse_usize input with
  | none => none
  | some (sum_exec_runtime, r1) =>
    match space r1 with
    | none => none
    | some r2 =>
      match parse_usize r2 with
      | none => none
      | some (run_delay, r3) =>
        match space r3 with
        | none => none
        | some r4 =>
          match parse_usize r4 with
          | none => none
          | some (pcount, r5) =>
            match line_ending r5 with
            | none => none
            | some _ =>
              some { sum_exec_runtime := sum_exec_runtime
                     run_delay := run_delay
                     pcount := pcount }

/-- The two failure kinds surfaced by the module: I/O failures and format
(parse) failures. -/
inductive ProcError
  | io
  | parse
deriving DecidableEq, Repr

/-- The capacity of the fixed read buffer in `schedstat_file` (256 bytes). -/
def BUF_SIZE : Nat := 256

/-- Modelled from the spec: the bounded-read primitive (`read_to_end` from
the repository's shared parsing utilities, absent from the source tree).
It reads the whole content into a caller-provided buffer of capacity
`BUF_SIZE` and fails with an I/O-kind failure, rather than silently
truncating, when the true content exceeds the capacity. -/
def read_to_end (content : List Nat) : Except ProcError (List Nat) :=
  if content.length ≤ BUF_SIZE then Except.ok content
  else Except.error ProcError.io

/-- Modelled from the spec: the adapter (`map_result` from the repository's
shared parsing utilities) converting a grammar-recognition outcome into a
success-or-failure result: a recognized record succeeds, anything else is a
format failure. -/
def map_result (r : Option Schedstat) : Except ProcError Schedstat :=
  match r with
  | some s => Except.ok s
  | none => Except.error ProcError.parse

/-- `schedstat_file` from the source: bounded read of the file content,
then parse. -/
def schedstat_file (content : List Nat) : Except ProcError Schedstat :=
  match read_to_end content with
  | Except.error e => Except.error e
  | Except.ok buf => map_result (parse_schedstat buf)

/-- Accumulator-style rendering of a natural number as its base-10 ASCII
digit bytes, prepended to `acc`; the empty number renders to nothing. -/
def encodeNatAux (n : Nat) (acc : List Nat) : List Nat :=
  if h : n = 0 then acc
  else encodeNatAux (n / 10) ((n % 10 + 48) :: acc)
decreasing_by exact Nat.div_lt_self (Nat.pos_of_ne_zero h) (by decide)

/-- The canonical base-10 ASCII rendering of a natural number (zero renders
as the single digit byte 48). -/
def encodeNat (n : Nat) : List Nat :=
  if n = 0 then [48] else encodeNatAux n []

theorem digitsVal_cons (i : Nat) (d : Nat) (ds : List Nat) :
    digitsVal i (d :: ds) = digitsVal (i * 10 + (d - 48)) ds := rfl

theorem digitsVal_encodeNatAux (n : Nat) :
    ∀ acc : List Nat, digitsVal 0 (encodeNatAux n acc) = digitsVal n acc := by
  induction n using Nat.strong_induction_on with
  | _ n ih =>
    intro acc
    by_cases h : n = 0
    · subst h
      rw [encodeNatAux]
      simp
    · rw [encodeNatAux]
      rw [dif_neg h]
      rw [ih (n / 10) (Nat.div_lt_self (Nat.pos_of_ne_zero h) (by decide))]
      rw [digitsVal_cons]
      rw [Nat.add_sub_cancel, Nat.div_add_mod']

theorem isDigit_mod_add (n : Nat) : isDigit (n % 10 + 48) = true := by
  simp only [isDigit, Bool.and_eq_true, decide_eq_true_eq]
  constructor
  · omega
  · omega

theorem encodeNatAux_digits (n : Nat) :
    ∀ acc : List Nat, (∀ b ∈ acc, isDigit b = true) →
      ∀ b ∈ encodeNatAux n acc, isDigit b = true := by
  induction n using Nat.strong_induction_on with
  | _ n ih =>
    intro acc hacc b hb
    by_cases h : n = 0
    · subst h
      rw [encodeNatAux] at hb
      simp only [dif_pos] at hb
      exact hacc b hb
    · rw [encodeNatAux, dif_neg h] at hb
      refine ih (n / 10) (Nat.div_lt_self (Nat.pos_of_ne_zero h) (by decide)) _ ?_ b hb
      intro d hd
      rcases List.mem_cons.mp hd with h1 | h2
      · subst h1; exact isDigit_mod_add n
      · exact hacc d h2

theorem encodeNatAux_ne_nil (n : Nat) :
    ∀ acc : List Nat, n ≠ 0 → encodeNatAux n acc ≠ [] := by
  induction n using Nat.strong_induction_on with
  | _ n ih =>
    intro acc hn
    rw [encodeNatAux, dif_neg hn]
    by_cases h10 : n / 10 = 0
    · rw [encodeNatAux, dif_pos h10]
      exact List.cons_ne_nil _ _
    · exact ih (n / 10) (Nat.div_lt_self (Nat.pos_of_ne_zero hn) (by decide)) _ h10

theorem encodeNat_digits (n : Nat) : ∀ b ∈ encodeNat n, isDigit b = true := by
  unfold encodeNat
  by_cases h : n = 0
  · rw [if_pos h]
    intro b hb
    rcases List.mem_singleton.mp hb with rfl
    decide
  · rw [if_neg h]
    exact encodeNatAux_digits n [] (by intro b hb; cases hb)

theorem encodeNat_ne_nil (n : Nat) : encodeNat n ≠ [] := by
  unfold encodeNat
  by_cases h : n = 0
  · rw [if_pos h]; exact List.cons_ne_nil _ _
  · rw [if_neg h]; exact encodeNatAux_ne_nil n [] h

theorem digitsVal_encodeNat (n : Nat) : digitsVal 0 (encodeNat n) = n := by
  unfold encodeNat
  by_cases h : n = 0
  · subst h; decide
  · rw [if_neg h, digitsVal_encodeNatAux]
    rfl

theorem takeWhile_append_digits (xs ys : List Nat)
    (h : ∀ b ∈ xs, isDigit b = true) :
    (xs ++ ys).takeWhile isDigit = xs ++ ys.takeWhile isDigit := by
  induction xs with
  | nil => simp
  | cons x xs ih =>
    have hx : isDigit x = true := h x (List.mem_cons_self x xs)
    simp only [List.cons_append, List.takeWhile_cons_of_pos hx, List.cons.injEq, true_and]
    exact ih (fun b hb => h b (List.mem_cons_of_mem x hb))

theorem dropWhile_append_digits (xs ys : List Nat)
    (h : ∀ b ∈ xs, isDigit b = true) :
    (xs ++ ys).dropWhile isDigit = ys.dropWhile isDigit := by
  induction xs with
  | nil => simp
  | cons x xs ih =>
    have hx : isDigit x = true := h x (List.mem_cons_self x xs)
    simp only [List.cons_append, List.dropWhile_cons_of_pos hx]
    exact ih (fun b hb => h b (List.mem_cons_of_mem x hb))


theorem takeWhile_encodeNat (a : Nat) :
    (encodeNat a).takeWhile isDigit = encodeNat a := by
  have h := takeWhile_append_digits (encodeNat a) [] (encodeNat_digits a)
  simpa using h

theorem dropWhile_encodeNat (a : Nat) :
    (encodeNat a).dropWhile isDigit = [] := by
  have h := dropWhile_append_digits (encodeNat a) [] (encodeNat_digits a)
  simpa using h

theorem parse_usize_encode_append (a y : Nat) (hy : isDigit y = false)
    (rest : List Nat) :
    parse_usize (encodeNat a ++ y :: rest) =
      if a ≤ USIZE_MAX then some (a, y :: rest) else none := by
  have htake : (encodeNat a ++ y :: rest).takeWhile isDigit = encodeNat a := by
    rw [takeWhile_append_digits _ _ (encodeNat_digits a)]
    rw [List.takeWhile_cons_of_neg (by simp [hy]), List.append_nil]
  have hdrop : (encodeNat a ++ y :: rest).dropWhile isDigit = y :: rest := by
    rw [dropWhile_append_digits _ _ (encodeNat_digits a)]
    rw [List.dropWhile_cons_of_neg (by simp [hy])]
  unfold parse_usize
  rw [htake, hdrop, if_neg (encodeNat_ne_nil a), digitsVal_encodeNat]

theorem parse_usize_encode_end (a : Nat) :
    parse_usize (encodeNat a) = if a ≤ USIZE_MAX then some (a, []) else none := by
  unfold parse_usize
  rw [takeWhile_encodeNat, dropWhile_encodeNat, if_neg (encodeNat_ne_nil a),
    digitsVal_encodeNat]

theorem parse_usize_head_fail (y : Nat) (hy : isDigit y = false)
    (rest : List Nat) :
    parse_usize (y :: rest) = none := by
  unfold parse_usize
  rw [List.takeWhile_cons_of_neg (by simp [hy]), if_pos rfl]

theorem parse_usize_nil : parse_usize [] = none := rfl

theorem space_cons_sp (rest : List Nat) : space (32 :: rest) = some rest := rfl

theorem line_ending_lf (rest : List Nat) : line_ending (10 :: rest) = some rest := rfl

theorem line_ending_crlf (rest : List Nat) :
    line_ending (13 :: 10 :: rest) = some rest := rfl

theorem parse_schedstat_line_lf (a b c : Nat) (ha : a ≤ USIZE_MAX)
    (hb : b ≤ USIZE_MAX) (hc : c ≤ USIZE_MAX) (rest : List Nat) :
    parse_schedstat
        (encodeNat a ++ 32 :: (encodeNat b ++ 32 :: (encodeNat c ++ 10 :: rest)))
      = some { sum_exec_runtime := a, run_delay := b, pcount := c } := by
  have h1 := parse_usize_encode_append a 32 (by decide)
    (encodeNat b ++ 32 :: (encodeNat c ++ 10 :: rest))
  have h2 := parse_usize_encode_append b 32 (by decide) (encodeNat c ++ 10 :: rest)
  have h3 := parse_usize_encode_append c 10 (by decide) rest
  rw [if_pos ha] at h1
  rw [if_pos hb] at h2
  rw [if_pos hc] at h3
  unfold parse_schedstat
  rw [h1]
  simp only [space_cons_sp, h2, h3, line_ending_lf]

theorem parse_schedstat_line_crlf (a b c : Nat) (ha : a ≤ USIZE_MAX)
    (hb : b ≤ USIZE_MAX) (hc : c ≤ USIZE_MAX) (rest : List Nat) :
    parse_schedstat
        (encodeNat a ++ 32 ::
          (encodeNat b ++ 32 :: (encodeNat c ++ 13 :: 10 :: rest)))
      = some { sum_exec_runtime := a, run_delay := b, pcount := c } := by
  have h1 := parse_usize_encode_append a 32 (by decide)
    (encodeNat b ++ 32 :: (encodeNat c ++ 13 :: 10 :: rest))
  have h2 := parse_usize_encode_append b 32 (by decide)
    (encodeNat c ++ 13 :: 10 :: rest)
  have h3 := parse_usize_encode_append c 13 (by decide) (10 :: rest)
  rw [if_pos ha] at h1
  rw [if_pos hb] at h2
  rw [if_pos hc] at h3
  unfold parse_schedstat
  rw [h1]
  simp only [space_cons_sp, h2, h3, line_ending_crlf]

/-- A well-formed schedstat line: the three numbers in base 10, single
spaces between them, a line feed at the end. -/
def schedstatLine (a b c : Nat) : List Nat :=
  encodeNat a ++ 32 :: (encodeNat b ++ 32 :: (encodeNat c ++ 10 :: []))

/-- The bytes of the line from the end-to-end example:
"297751702229 1936831953 8028005" followed by a line feed. -/
def exampleBytes : List Nat :=
  [50, 57, 55, 55, 53, 49, 55, 48, 50, 50, 50, 57, 32,
   49, 57, 51, 54, 56, 51, 49, 57, 53, 51, 32,
   56, 48, 50, 56, 48, 48, 53, 10]

/-- C1: for all usize-representable a, b, c, parsing the line
"a SP b SP c LF" succeeds and yields the record with sum_exec_runtime = a,
run_delay = b, pcount = c, assigned in token order; in particular the
example line "297751702229 1936831953 8028005" with a line feed parses to
the record (297751702229, 1936831953, 8028005). -/
theorem claim_C1 :
    (∀ a b c : Nat, a ≤ USIZE_MAX → b ≤ USIZE_MAX → c ≤ USIZE_MAX →
      parse_schedstat (schedstatLine a b c)
        = some { sum_exec_runtime := a, run_delay := b, pcount := c })
    ∧ parse_schedstat exampleBytes
        = some { sum_exec_runtime := 297751702229, run_delay := 1936831953,
                 pcount := 8028005 } := by
  constructor
  · intro a b c ha hb hc
    exact parse_schedstat_line_lf a b c ha hb hc []
  · decide

/-- Witness for C1 at a concrete input. -/
theorem claim_C1_witness :
    parse_schedstat (schedstatLine 3 5 7)
      = some { sum_exec_runtime := 3, run_delay := 5, pcount := 7 } :=
  claim_C1.1 3 5 7 (by decide) (by decide) (by decide)

/-- C10: the parser accepts a carriage-return-line-feed pair as the line
terminator, with the same resulting record as the line-feed form. -/
theorem claim_C10 (a b c : Nat) (ha : a ≤ USIZE_MAX) (hb : b ≤ USIZE_MAX)
    (hc : c ≤ USIZE_MAX) :
    parse_schedstat
        (encodeNat a ++ 32 :: (encodeNat b ++ 32 :: (encodeNat c ++ [13, 10])))
      = some { sum_exec_runtime := a, run_delay := b, pcount := c }
    ∧ parse_schedstat
        (encodeNat a ++ 32 :: (encodeNat b ++ 32 :: (encodeNat c ++ [13, 10])))
      = parse_schedstat (schedstatLine a b c) := by
  have hcr := parse_schedstat_line_crlf a b c ha hb hc []
  have hlf := parse_schedstat_line_lf a b c ha hb hc []
  exact ⟨hcr, hcr.trans hlf.symm⟩

/-- Witness for C10 at a concrete input. -/
theorem claim_C10_witness :
    parse_schedstat
        (encodeNat 7 ++ 32 :: (encodeNat 8 ++ 32 :: (encodeNat 9 ++ [13, 10])))
      = some { sum_exec_runtime := 7, run_delay := 8, pcount := 9 } :=
  (claim_C10 7 8 9 (by decide) (by decide) (by decide)).1

theorem space_tab (rest : List Nat) : space (9 :: rest) = none := rfl

theorem line_ending_sp (rest : List Nat) : line_ending (32 :: rest) = none := rfl

/-- C2: only a single ASCII space is accepted as separator.  A tab in
either separator position, a doubled space at either separator position,
a leading space, or a trailing space before the terminator all make the
parse fail. -/
theorem claim_C2 :
    (∀ a b c : Nat, a ≤ USIZE_MAX →
      parse_schedstat
          (encodeNat a ++ 9 :: (encodeNat b ++ 32 :: (encodeNat c ++ [10])))
        = none)
    ∧ (∀ a b c : Nat, a ≤ USIZE_MAX → b ≤ USIZE_MAX →
      parse_schedstat
          (encodeNat a ++ 32 :: (encodeNat b ++ 9 :: (encodeNat c ++ [10])))
        = none)
    ∧ (∀ a b c : Nat, a ≤ USIZE_MAX →
      parse_schedstat
          (encodeNat a ++ 32 :: 32 :: (encodeNat b ++ 32 :: (encodeNat c ++ [10])))
        = none)
    ∧ (∀ a b c : Nat, a ≤ USIZE_MAX → b ≤ USIZE_MAX →
      parse_schedstat
          (encodeNat a ++ 32 :: (encodeNat b ++ 32 :: 32 :: (encodeNat c ++ [10])))
        = none)
    ∧ (∀ a b c : Nat, parse_schedstat (32 :: schedstatLine a b c) = none)
    ∧ (∀ a b c : Nat, a ≤ USIZE_MAX → b ≤ USIZE_MAX → c ≤ USIZE_MAX →
      parse_schedstat
          (encodeNat a ++ 32 :: (encodeNat b ++ 32 :: (encodeNat c ++ [32, 10])))
        = none) := by
  refine ⟨?_, ?_, ?_, ?_, ?_, ?_⟩
  · intro a b c ha
    have h1 := parse_usize_encode_append a 9 (by decide)
      (encodeNat b ++ 32 :: (encodeNat c ++ [10]))
    rw [if_pos ha] at h1
    unfold parse_schedstat
    rw [h1]
    simp only [space_tab]
  · intro a b c ha hb
    have h1 := parse_usize_encode_append a 32 (by decide)
      (encodeNat b ++ 9 :: (encodeNat c ++ [10]))
    have h2 := parse_usize_encode_append b 9 (by decide) (encodeNat c ++ [10])
    rw [if_pos ha] at h1
    rw [if_pos hb] at h2
    unfold parse_schedstat
    rw [h1]
    simp only [space_cons_sp, h2, space_tab]
  · intro a b c ha
    have h1 := parse_usize_encode_append a 32 (by decide)
      (32 :: (encodeNat b ++ 32 :: (encodeNat c ++ [10])))
    rw [if_pos ha] at h1
    unfold parse_schedstat
    rw [h1]
    simp only [space_cons_sp, parse_usize_head_fail 32 (by decide)]
  · intro a b c ha hb
    have h1 := parse_usize_encode_append a 32 (by decide)
      (encodeNat b ++ 32 :: 32 :: (encodeNat c ++ [10]))
    have h2 := parse_usize_encode_append b 32 (by decide)
      (32 :: (encodeNat c ++ [10]))
    rw [if_pos ha] at h1
    rw [if_pos hb] at h2
    unfold parse_schedstat
    rw [h1]
    simp only [space_cons_sp, h2, parse_usize_head_fail 32 (by decide)]
  · intro a b c
    unfold parse_schedstat
    rw [parse_usize_head_fail 32 (by decide)]
  · intro a b c ha hb hc
    have h1 := parse_usize_encode_append a 32 (by decide)
      (encodeNat b ++ 32 :: (encodeNat c ++ [32, 10]))
    have h2 := parse_usize_encode_append b 32 (by decide)
      (encodeNat c ++ [32, 10])
    have h3 := parse_usize_encode_append c 32 (by decide) [10]
    rw [if_pos ha] at h1
    rw [if_pos hb] at h2
    rw [if_pos hc] at h3
    unfold parse_schedstat
    rw [h1]
    simp only [space_cons_sp, h2, h3, line_ending_sp]

/-- Witness for C2 at a concrete input. -/
theorem claim_C2_witness :
    parse_schedstat
        (encodeNat 1 ++ 9 :: (encodeNat 2 ++ 32 :: (encodeNat 3 ++ [10])))
      = none :=
  claim_C2.1 1 2 3 (by decide)

theorem space_lf (rest : List Nat) : space (10 :: rest) = none := rfl

theorem line_ending_nil : line_ending [] = none := rfl

/-- C3: the parse fails, yielding no record, on the empty input, on a line
with a missing separator and third token, on a line with no trailing line
terminator, on a leading negative sign, and on a non-digit byte where a
digit is expected. -/
theorem claim_C3 :
    parse_schedstat [] = none
    ∧ (∀ a b : Nat, a ≤ USIZE_MAX → b ≤ USIZE_MAX →
      parse_schedstat (encodeNat a ++ 32 :: (encodeNat b ++ [10])) = none)
    ∧ (∀ a b c : Nat, a ≤ USIZE_MAX → b ≤ USIZE_MAX →
      parse_schedstat (encodeNat a ++ 32 :: (encodeNat b ++ 32 :: encodeNat c))
        = none)
    ∧ (∀ a b c : Nat, parse_schedstat (45 :: schedstatLine a b c) = none)
    ∧ (∀ a c : Nat, a ≤ USIZE_MAX →
      parse_schedstat (encodeNat a ++ 32 :: 120 :: 32 :: (encodeNat c ++ [10]))
        = none) := by
  refine ⟨?_, ?_, ?_, ?_, ?_⟩
  · unfold parse_schedstat
    rw [parse_usize_nil]
  · intro a b ha hb
    have h1 := parse_usize_encode_append a 32 (by decide) (encodeNat b ++ [10])
    have h2 := parse_usize_encode_append b 10 (by decide) []
    rw [if_pos ha] at h1
    rw [if_pos hb] at h2
    unfold parse_schedstat
    rw [h1]
    simp only [space_cons_sp, h2, space_lf]
  · intro a b c ha hb
    have h1 := parse_usize_encode_append a 32 (by decide)
      (encodeNat b ++ 32 :: encodeNat c)
    have h2 := parse_usize_encode_append b 32 (by decide) (encodeNat c)
    have h3 := parse_usize_encode_end c
    rw [if_pos ha] at h1
    rw [if_pos hb] at h2
    unfold parse_schedstat
    rw [h1]
    by_cases hc : c ≤ USIZE_MAX
    · rw [if_pos hc] at h3
      simp only [space_cons_sp, h2, h3, line_ending_nil]
    · rw [if_neg hc] at h3
      simp only [space_cons_sp, h2, h3]
  · intro a b c
    unfold parse_schedstat
    rw [parse_usize_head_fail 45 (by decide)]
  · intro a c ha
    have h1 := parse_usize_encode_append a 32 (by decide)
      (120 :: 32 :: (encodeNat c ++ [10]))
    rw [if_pos ha] at h1
    unfold parse_schedstat
    rw [h1]
    simp only [space_cons_sp, parse_usize_head_fail 120 (by decide)]

/-- Witness for C3 at a concrete input. -/
theorem claim_C3_witness :
    parse_schedstat (encodeNat 4 ++ 32 :: (encodeNat 5 ++ [10])) = none :=
  claim_C3.2.1 4 5 (by decide) (by decide)

/-- C4: a numeric token whose base-10 value does not fit in the native
unsigned-integer width makes the whole parse fail; no record (wrapped,
saturated, or otherwise) is produced. -/
theorem claim_C4 (a b c : Nat)
    (h : USIZE_MAX < a ∨ USIZE_MAX < b ∨ USIZE_MAX < c) :
    parse_schedstat (schedstatLine a b c) = none := by
  have h1 := parse_usize_encode_append a 32 (by decide)
    (encodeNat b ++ 32 :: (encodeNat c ++ 10 :: []))
  have h2 := parse_usize_encode_append b 32 (by decide)
    (encodeNat c ++ 10 :: [])
  have h3 := parse_usize_encode_append c 10 (by decide) []
  unfold schedstatLine parse_schedstat
  by_cases ha : a ≤ USIZE_MAX
  · rw [if_pos ha] at h1
    rw [h1]
    by_cases hb : b ≤ USIZE_MAX
    · rw [if_pos hb] at h2
      have hc : USIZE_MAX < c := by
        rcases h with h | h | h
        · exact absurd h (not_lt.mpr ha)
        · exact absurd h (not_lt.mpr hb)
        · exact h
      rw [if_neg (not_le.mpr hc)] at h3
      simp only [space_cons_sp, h2, h3]
    · rw [if_neg hb] at h2
      simp only [space_cons_sp, h2]
  · rw [if_neg ha] at h1
    rw [h1]

/-- Witness for C4 at a concrete input: the first token is one past the
largest representable value. -/
theorem claim_C4_witness :
    parse_schedstat (schedstatLine 18446744073709551616 1 1) = none :=
  claim_C4 18446744073709551616 1 1 (Or.inl (by decide))

/-- C5: when the true content is larger than the 256-byte buffer,
schedstat_file fails with an I/O-kind failure; it never parses a
truncated prefix. -/
theorem claim_C5 (content : List Nat) (h : BUF_SIZE < content.length) :
    schedstat_file content = Except.error ProcError.io := by
  unfold schedstat_file read_to_end
  rw [if_neg (not_le.mpr h)]

/-- Witness for C5 at a concrete input of 257 bytes. -/
theorem claim_C5_witness :
    schedstat_file (List.replicate 257 48) = Except.error ProcError.io :=
  claim_C5 (List.replicate 257 48) (by rw [List.length_replicate]; decide)

/-- C6: a valid line followed by arbitrary trailing bytes parses to the
same record as the line alone; the trailing bytes neither change the
record nor cause a failure. -/
theorem claim_C6 (a b c : Nat) (ha : a ≤ USIZE_MAX) (hb : b ≤ USIZE_MAX)
    (hc : c ≤ USIZE_MAX) (rest : List Nat) :
    parse_schedstat (schedstatLine a b c ++ rest)
      = some { sum_exec_runtime := a, run_delay := b, pcount := c } := by
  have h := parse_schedstat_line_lf a b c ha hb hc rest
  rw [show schedstatLine a b c ++ rest
      = encodeNat a ++ 32 :: (encodeNat b ++ 32 :: (encodeNat c ++ 10 :: rest)) by
    simp [schedstatLine]]
  exact h

/-- Witness for C6 at a concrete input with trailing bytes. -/
theorem claim_C6_witness :
    parse_schedstat (schedstatLine 1 2 3 ++ [65, 66, 67])
      = some { sum_exec_runtime := 1, run_delay := 2, pcount := 3 } :=
  claim_C6 1 2 3 (by decide) (by decide) (by decide) [65, 66, 67]

/-- The path opened by `schedstat` for a given pid, from the format string
in the source. -/
def schedstat_path (pid : Int) : String :=
  "/proc/" ++ toString pid ++ "/schedstat"

/-- The path opened by `schedstat_self`, from the literal in the source. -/
def schedstat_self_path : String := "/proc/self/schedstat"

/-- The path opened by `schedstat_task` for a given process id and thread
id, from the format string in the source. -/
def schedstat_task_path (process_id thread_id : Int) : String :=
  "/proc/" ++ toString process_id ++ "/task/" ++ toString thread_id
    ++ "/schedstat"

/-- A filesystem oracle: maps a path to the content of the file there, or
to nothing when opening the path fails. -/
def ProcFS : Type := String → Option (List Nat)

/-- Opening a file through the oracle: a missing path is an I/O failure. -/
def openFile (fs : ProcFS) (path : String) : Except ProcError (List Nat) :=
  match fs path with
  | some content => Except.ok content
  | none => Except.error ProcError.io

/-- `schedstat` from the source: open the pid's schedstat path, then read
and parse it. -/
def schedstat (pid : Int) (fs : ProcFS) : Except ProcError Schedstat :=
  match openFile fs (schedstat_path pid) with
  | Except.error e => Except.error e
  | Except.ok content => schedstat_file content

/-- `schedstat_self` from the source: open the self schedstat path, then
read and parse it. -/
def schedstat_self (fs : ProcFS) : Except ProcError Schedstat :=
  match openFile fs schedstat_self_path with
  | Except.error e => Except.error e
  | Except.ok content => schedstat_file content

/-- `schedstat_task` from the source: open the nested process/thread
schedstat path, then read and parse it. -/
def schedstat_task (process_id thread_id : Int) (fs : ProcFS) :
    Except ProcError Schedstat :=
  match openFile fs (schedstat_task_path process_id thread_id) with
  | Except.error e => Except.error e
  | Except.ok content => schedstat_file content

/-- C7: each accessor opens exactly the path determined by its identifier:
the paths have the stated shapes, and each accessor's result depends on
the filesystem only through its value at that one path. -/
theorem claim_C7 :
    (∀ P : Int, schedstat_path P = "/proc/" ++ toString P ++ "/schedstat")
    ∧ schedstat_self_path = "/proc/self/schedstat"
    ∧ (∀ P T : Int, schedstat_task_path P T
        = "/proc/" ++ toString P ++ "/task/" ++ toString T ++ "/schedstat")
    ∧ (∀ (P : Int) (fs fs' : ProcFS),
        fs (schedstat_path P) = fs' (schedstat_path P) →
        schedstat P fs = schedstat P fs')
    ∧ (∀ fs fs' : ProcFS,
        fs schedstat_self_path = fs' schedstat_self_path →
        schedstat_self fs = schedstat_self fs')
    ∧ (∀ (P T : Int) (fs fs' : ProcFS),
        fs (schedstat_task_path P T) = fs' (schedstat_task_path P T) →
        schedstat_task P T fs = schedstat_task P T fs') := by
  refine ⟨fun P => rfl, rfl, fun P T => rfl, ?_, ?_, ?_⟩
  · intro P fs fs' h
    unfold schedstat openFile
    rw [h]
  · intro fs fs' h
    unfold schedstat_self openFile
    rw [h]
  · intro P T fs fs' h
    unfold schedstat_task openFile
    rw [h]

/-- Witness for C7: two oracles that agree on the pid-1 path but nowhere
else give the same result, and the concrete paths evaluate as stated. -/
theorem claim_C7_witness :
    schedstat 1 (fun _ => some exampleBytes)
      = schedstat 1
          (fun p => if p = "/proc/1/schedstat" then some exampleBytes else none)
    ∧ schedstat_path 1 = "/proc/1/schedstat"
    ∧ schedstat_task_path 2 3 = "/proc/2/task/3/schedstat" :=
  ⟨claim_C7.2.2.2.1 1 _ _ (by decide), by decide, by decide⟩

/-- C8: the default-constructed record has all three fields equal to
zero. -/
theorem claim_C8 :
    Schedstat.default.sum_exec_runtime = 0
    ∧ Schedstat.default.run_delay = 0
    ∧ Schedstat.default.pcount = 0 :=
  ⟨rfl, rfl, rfl⟩

/-- C9: parsing is deterministic, and equality of records is structural:
two records are equal exactly when their three fields agree pairwise. -/
theorem claim_C9 :
    (∀ input : List Nat, parse_schedstat input = parse_schedstat input)
    ∧ (∀ s t : Schedstat, s = t ↔
        s.sum_exec_runtime = t.sum_exec_runtime
        ∧ s.run_delay = t.run_delay
        ∧ s.pcount = t.pcount) := by
  constructor
  · intro input
    rfl
  · intro s t
    cases s
    cases t
    simp only [Schedstat.mk.injEq]

/-- Witness for C9 at a concrete input. -/
theorem claim_C9_witness :
    parse_schedstat exampleBytes = parse_schedstat exampleBytes :=
  claim_C9.1 exampleBytes
